import Mathlib

/-!
Verification development for the options-pricing and backtest code of the
DoomsdayChallenge repository (`quant_projects/optionsPricer.py` and
`quant_projects/optionsProfit.py`).

The Python code is shallowly embedded as Lean functions over an arbitrary
linear ordered field `R` (instantiated with `ℝ` in the theorems).  The
transcendental library routines used by the Python code (`math.log`,
`math.sqrt`, `math.exp`, `scipy.stats.norm.cdf`, float `**`) are passed in
as explicit function parameters `log'`, `sqrt'`, `exp'`, `cdf'`, `pow'`, so
the embedding itself stays computable; theorems instantiate them with
`Real.log`, `Real.sqrt`, `Real.exp`, the Gaussian CDF, and `Real.rpow`
where the claims require the actual real functions.

Python exceptions are embedded with `Except`: `raise ValueError(msg)`
becomes `Except.error (PyError.valueError msg)`, and the `ZeroDivisionError`
raised by Python's division on a zero denominator becomes
`Except.error PyError.zeroDivisionError`.
-/

namespace DoomsdayChallenge

/-- ASCII lower-casing of one character, as Python's `str.lower` acts on the
ASCII letters that appear in the option-kind strings. -/
def lowerChar (c : Char) : Char :=
  if 'A' ≤ c ∧ c ≤ 'Z' then Char.ofNat (c.toNat + 32) else c

/-- Embedding of Python's `str.lower()` (restricted to ASCII, which covers
the `'call'`/`'put'` comparisons made by the code). -/
def pyLower (s : String) : String := ⟨s.data.map lowerChar⟩

/-- Python exceptions raised by the embedded code. -/
inductive PyError where
  | valueError (msg : String)
  | zeroDivisionError

/-- Message of the `ValueError` raised by `black_scholes_price` when a
numeric parameter is out of domain (source: optionsPricer.py line 26 /
optionsProfit.py line 12). -/
def domainMsg : String := "S, K, T, and sigma must be greater than 0."

/-- Message of the `ValueError` raised by `black_scholes_price` on an
unrecognized option type (source: optionsPricer.py line 36 /
optionsProfit.py line 22). -/
def invalidTypeMsg : String := "Invalid option type. Use 'call' or 'put'."

/-- Message of the `ValueError` raised by `volatility` when the index is
too low (source: optionsProfit.py line 46). -/
def historyMsg : String := "Index too low for trailing volatility calculation"

/-- A Python float-or-complex result: `(netReturn / totalCost)**(1/years)`
returns a `complex` value in Python 3 when the base is negative (and the
exponents arising here are non-integral), instead of a real number. -/
inductive PyNum (R : Type) where
  | real (x : R)
  | complex

section Embedding

variable {R : Type} [LinearOrderedField R]

/-- Embedding of `black_scholes_price` (optionsPricer.py lines 10-37,
duplicated in optionsProfit.py lines 10-24).  `log'`, `sqrt'`, `exp'`,
`cdf'` stand for `math.log`, `math.sqrt`, `math.exp`, `norm.cdf`. -/
def black_scholes_price (log' sqrt' exp' cdf' : R → R)
    (S K T r sigma : R) (option_type : String) : Except PyError R :=
  if T ≤ 0 ∨ sigma ≤ 0 ∨ S ≤ 0 ∨ K ≤ 0 then
    .error (.valueError domainMsg)
  else
    let d1 := (log' (S / K) + (r + 0.5 * sigma ^ 2) * T) / (sigma * sqrt' T)
    let d2 := d1 - sigma * sqrt' T
    if pyLower option_type = "call" then
      .ok (S * cdf' d1 - K * exp' (-r * T) * cdf' d2)
    else if pyLower option_type = "put" then
      .ok (K * exp' (-r * T) * cdf' (-d2) - S * cdf' (-d1))
    else
      .error (.valueError invalidTypeMsg)

/-- The slice `df['Close/Last'][index-252:index]` of optionsProfit.py
line 47: positions `[index-252, index)` of the close series. -/
def windowCloses (closes : List R) (index : Nat) : List R :=
  (closes.drop (index - 252)).take 252

/-- `(prices / prices.shift(1)).apply(math.log).dropna()` of
optionsProfit.py line 48: the element at position `j` of
`prices / prices.shift(1)` is `prices[j] / prices[j-1]`, the leading `NaN`
produced by `shift(1)` being removed by `dropna()`. -/
def logReturns (log' : R → R) (w : List R) : List R :=
  List.zipWith (fun num den => log' (num / den)) w.tail w

/-- pandas `Series.std()` with its default `ddof=1`: the square root of the
sum of squared deviations from the mean divided by `n - 1`. -/
def sampleStd (sqrt' : R → R) (xs : List R) : R :=
  let m := xs.sum / (xs.length : R)
  sqrt' ((xs.map fun x => (x - m) ^ 2).sum / ((xs.length : R) - 1))

/-- Embedding of `volatility` (optionsProfit.py lines 43-49). -/
def volatility (log' sqrt' : R → R) (closes : List R) (index : Nat) :
    Except PyError R :=
  if index < 252 then .error (.valueError historyMsg)
  else .ok (sampleStd sqrt' (logReturns log' (windowCloses closes index)) * sqrt' 252)

/-- The module-level constant `strikeRatio = 1.05` of optionsProfit.py
line 7. -/
def strikeRat : R := 1.05

/-- The per-step data printed/collected by one iteration of the `diffCheck`
loop (optionsProfit.py lines 61-77): index, spot, strike, volatility, call
price, and the emitted `yearlyProfit`. -/
structure Step (R : Type) where
  idx : Nat
  S : R
  K : R
  vol : R
  callPrice : R
  yearlyProfit : R

/-- One iteration of the `diffCheck` loop body up to the emitted step record
(optionsProfit.py lines 61-77): `S = df['Close/Last'][i]`,
`K = S * strikeRatio`, `vol = volatility(i, df)`,
`callPrice = black_scholes_price(S, K, 1, strikeRatio - 1, vol, 'call')`,
`yearlyProfit = df['Close/Last'][i+252] - (strikeRatio * S)`.
List indexing is total in the embedding (`getD _ 0`); the loop bounds keep
every access in range. -/
def backtestStep (log' sqrt' exp' cdf' : R → R) (closes : List R) (i : Nat) :
    Except PyError (Step R) := do
  let S := closes.getD i 0
  let K := S * strikeRat
  let vol ← volatility log' sqrt' closes i
  let callPrice ← black_scholes_price log' sqrt' exp' cdf' S K 1 (strikeRat - 1) vol "call"
  let yearlyProfit := closes.getD (i + 252) 0 - strikeRat * S
  .ok ⟨i, S, K, vol, callPrice, yearlyProfit⟩

/-- The accumulators of the `diffCheck` loop (optionsProfit.py lines 52-54,
58): `totalProfit`, `totalCost`, `netReturn`, and the collected per-step
records (the code appends `callPrice` to `callPrices`; the embedding keeps
the whole step record, of which `callPrices` is the projection). -/
structure LoopState (R : Type) where
  totalProfit : R
  totalCost : R
  netReturn : R
  steps : List (Step R)

/-- The `for i in range(...)` loop of `diffCheck` (optionsProfit.py lines
60-79), run over an explicit list of indices.  Per iteration the code
appends the call price, adds `max(df['Close/Last'][i+252] - (1.05 * S), 0)`
to `netReturn` (line 78, with the literal `1.05`), and adds `callPrice` to
`totalCost` (line 79).  `totalProfit` is never touched by the loop. -/
def runSteps (log' sqrt' exp' cdf' : R → R) (closes : List R) :
    List Nat → LoopState R → Except PyError (LoopState R)
  | [], st => .ok st
  | i :: rest, st => do
    let s ← backtestStep log' sqrt' exp' cdf' closes i
    runSteps log' sqrt' exp' cdf' closes rest
      ⟨st.totalProfit, st.totalCost + s.callPrice,
       st.netReturn + max (closes.getD (i + 252) 0 - 1.05 * s.S) 0,
       st.steps ++ [s]⟩

/-- The aggregates printed by `diffCheck` after the loop, plus its Python
return value (optionsProfit.py lines 83-89). -/
structure RunResult (R : Type) where
  steps : List (Step R)
  netProfit : R
  totalCost : R
  roi : R
  years : R
  annualized : PyNum R
  totalProfit : R

/-- The post-loop section of `diffCheck` (optionsProfit.py lines 83-89).
`(netReturn - totalCost) / totalCost` raises `ZeroDivisionError` when
`totalCost` is zero (line 85); `1/years` raises it when `years` is zero
(line 88); and `(netReturn / totalCost)**(1/years)` yields a Python
`complex` when the base is negative (the exponent `1/years` reaching this
expression is never an integer-valued float for these inputs), embedded as
`PyNum.complex`.  The returned value is the untouched `totalProfit`
accumulator (line 89). -/
def finalize (pow' : R → R → R) (rowCount startIndex : Nat) (st : LoopState R) :
    Except PyError (RunResult R) :=
  if st.totalCost = 0 then .error .zeroDivisionError
  else
    let years := ((rowCount : R) - 252 - (startIndex : R)) / 252
    if years = 0 then .error .zeroDivisionError
    else
      let base := st.netReturn / st.totalCost
      let annualized : PyNum R :=
        if base < 0 then .complex else .real (pow' base (1 / years))
      .ok ⟨st.steps, st.netReturn - st.totalCost, st.totalCost,
           (st.netReturn - st.totalCost) / st.totalCost, years, annualized,
           st.totalProfit⟩

/-- Embedding of `diffCheck` (optionsProfit.py lines 51-89).  The Python
loop `for i in range(start_index, row_count - 252)` is the index list
`List.range' start_index (row_count - 252 - start_index)` (empty when
`start_index ≥ row_count - 252`, exactly as `range`). -/
def diffCheck (log' sqrt' exp' cdf' : R → R) (pow' : R → R → R)
    (closes : List R) (start_index : Nat) : Except PyError (RunResult R) := do
  let st ← runSteps log' sqrt' exp' cdf' closes
    (List.range' start_index (closes.length - 252 - start_index))
    ⟨0, 0, 0, []⟩
  finalize pow' closes.length start_index st

/-- Written from the spec: `d1 = (ln(S/K) + (r + 0.5·σ²)·T) / (σ·√T)`. -/
def specD1 (log' sqrt' : R → R) (S K T r sigma : R) : R :=
  (log' (S / K) + (r + 0.5 * sigma ^ 2) * T) / (sigma * sqrt' T)

/-- Written from the spec: `d2 = d1 − σ·√T`. -/
def specD2 (log' sqrt' : R → R) (S K T r sigma : R) : R :=
  specD1 log' sqrt' S K T r sigma - sigma * sqrt' T

/-- Written from the spec: `call = S·Φ(d1) − K·e^(−r·T)·Φ(d2)`. -/
def specCallPrice (log' sqrt' exp' cdf' : R → R) (S K T r sigma : R) : R :=
  S * cdf' (specD1 log' sqrt' S K T r sigma) -
    K * exp' (-(r * T)) * cdf' (specD2 log' sqrt' S K T r sigma)

/-- Written from the spec: `put = K·e^(−r·T)·Φ(−d2) − S·Φ(−d1)`. -/
def specPutPrice (log' sqrt' exp' cdf' : R → R) (S K T r sigma : R) : R :=
  K * exp' (-(r * T)) * cdf' (-(specD2 log' sqrt' S K T r sigma)) -
    S * cdf' (-(specD1 log' sqrt' S K T r sigma))

/-- Written from the spec: the daily log returns `r_t = ln(P_t / P_{t-1})`
for consecutive pairs in a window, indexed by position. -/
def specLogReturns (log' : R → R) (w : List R) : List R :=
  (List.range (w.length - 1)).map fun t => log' (w.getD (t + 1) 0 / w.getD t 0)

/-- Written from the spec: the trailing annualized volatility — sample
standard deviation (ddof = 1) of the window's log returns, multiplied by
`√252`. -/
def specTrailingVol (log' sqrt' : R → R) (closes : List R) (index : Nat) : R :=
  sampleStd sqrt' (specLogReturns log' (windowCloses closes index)) * sqrt' 252

end Embedding

/-- Helper: with all four numeric preconditions and a kind lower-casing to
`"call"`, the embedded pricer takes the call branch and returns the spec's
call formula. -/
lemma bsp_ok_call (log' sqrt' exp' cdf' : ℝ → ℝ) (S K T r sigma : ℝ)
    (hS : 0 < S) (hK : 0 < K) (hT : 0 < T) (hsig : 0 < sigma)
    (kind : String) (hk : pyLower kind = "call") :
    black_scholes_price log' sqrt' exp' cdf' S K T r sigma kind =
      .ok (specCallPrice log' sqrt' exp' cdf' S K T r sigma) := by
  have hguard : ¬(T ≤ 0 ∨ sigma ≤ 0 ∨ S ≤ 0 ∨ K ≤ 0) := by
    push_neg
    exact ⟨hT, hsig, hS, hK⟩
  simp only [black_scholes_price, if_neg hguard, hk, specCallPrice, specD2, specD1,
    neg_mul, if_pos]

/-- Helper: with all four numeric preconditions and a kind lower-casing to
`"put"`, the embedded pricer takes the put branch and returns the spec's
put formula. -/
lemma bsp_ok_put (log' sqrt' exp' cdf' : ℝ → ℝ) (S K T r sigma : ℝ)
    (hS : 0 < S) (hK : 0 < K) (hT : 0 < T) (hsig : 0 < sigma)
    (kind : String) (hk : pyLower kind = "put") :
    black_scholes_price log' sqrt' exp' cdf' S K T r sigma kind =
      .ok (specPutPrice log' sqrt' exp' cdf' S K T r sigma) := by
  have hguard : ¬(T ≤ 0 ∨ sigma ≤ 0 ∨ S ≤ 0 ∨ K ≤ 0) := by
    push_neg
    exact ⟨hT, hsig, hS, hK⟩
  simp only [black_scholes_price, if_neg hguard, hk, specPutPrice, specD2, specD1,
    neg_mul]
  rw [if_pos trivial, if_neg (show ¬(("put" : String) = "call") by decide)]

/-- C1: for every S>0, K>0, T>0, sigma>0, real r, and kind lower-casing to
`call` or `put` (case-insensitively), `black_scholes_price` returns exactly
the Black-Scholes value of the spec: `S·Φ(d1) − K·e^(−r·T)·Φ(d2)` for a
call and `K·e^(−r·T)·Φ(−d2) − S·Φ(−d1)` for a put, with
`d1 = (ln(S/K) + (r + 0.5·σ²)·T)/(σ·√T)` and `d2 = d1 − σ·√T`.  The
transcendental functions are arbitrary parameters, so the identity holds in
particular for `Real.log`, `Real.sqrt`, `Real.exp` and the standard normal
CDF. -/
theorem price_eq_black_scholes_formula (log' sqrt' exp' cdf' : ℝ → ℝ)
    (S K T r sigma : ℝ)
    (hS : 0 < S) (hK : 0 < K) (hT : 0 < T) (hsig : 0 < sigma) (kind : String) :
    (pyLower kind = "call" →
      black_scholes_price log' sqrt' exp' cdf' S K T r sigma kind =
        .ok (specCallPrice log' sqrt' exp' cdf' S K T r sigma)) ∧
    (pyLower kind = "put" →
      black_scholes_price log' sqrt' exp' cdf' S K T r sigma kind =
        .ok (specPutPrice log' sqrt' exp' cdf' S K T r sigma)) :=
  ⟨bsp_ok_call log' sqrt' exp' cdf' S K T r sigma hS hK hT hsig kind,
   bsp_ok_put log' sqrt' exp' cdf' S K T r sigma hS hK hT hsig kind⟩

/-- Witness for C1 at S=100, K=105, T=1, r=0.05, σ=0.2, with the real
transcendental functions and the standard normal CDF, and mixed-case kinds
`"Call"` and `"PUT"`. -/
theorem price_eq_black_scholes_formula_witness :
    black_scholes_price Real.log Real.sqrt Real.exp
        (fun x => (ProbabilityTheory.gaussianReal 0 1 (Set.Iic x)).toReal)
        100 105 1 0.05 0.2 "Call" =
      .ok (specCallPrice Real.log Real.sqrt Real.exp
        (fun x => (ProbabilityTheory.gaussianReal 0 1 (Set.Iic x)).toReal)
        100 105 1 0.05 0.2) ∧
    black_scholes_price Real.log Real.sqrt Real.exp
        (fun x => (ProbabilityTheory.gaussianReal 0 1 (Set.Iic x)).toReal)
        100 105 1 0.05 0.2 "PUT" =
      .ok (specPutPrice Real.log Real.sqrt Real.exp
        (fun x => (ProbabilityTheory.gaussianReal 0 1 (Set.Iic x)).toReal)
        100 105 1 0.05 0.2) :=
  ⟨(price_eq_black_scholes_formula Real.log Real.sqrt Real.exp _
      100 105 1 0.05 0.2 (by norm_num) (by norm_num) (by norm_num) (by norm_num)
      "Call").1 (by decide),
   (price_eq_black_scholes_formula Real.log Real.sqrt Real.exp _
      100 105 1 0.05 0.2 (by norm_num) (by norm_num) (by norm_num) (by norm_num)
      "PUT").2 (by decide)⟩

/-- C2: `black_scholes_price` fails exactly on S≤0, K≤0, T≤0, sigma≤0 or an
unrecognized (case-insensitive) kind; a nonpositive numeric parameter gives
the ValueError with the domain message, an unrecognized kind gives the
ValueError with the distinct invalid-option-type message, and otherwise a
value is returned (never a partial computation). -/
theorem price_error_characterization (log' sqrt' exp' cdf' : ℝ → ℝ)
    (S K T r sigma : ℝ) (kind : String) :
    ((S ≤ 0 ∨ K ≤ 0 ∨ T ≤ 0 ∨ sigma ≤ 0) →
      black_scholes_price log' sqrt' exp' cdf' S K T r sigma kind =
        .error (.valueError domainMsg)) ∧
    (0 < S → 0 < K → 0 < T → 0 < sigma →
      pyLower kind ≠ "call" → pyLower kind ≠ "put" →
      black_scholes_price log' sqrt' exp' cdf' S K T r sigma kind =
        .error (.valueError invalidTypeMsg)) ∧
    (0 < S → 0 < K → 0 < T → 0 < sigma →
      (pyLower kind = "call" ∨ pyLower kind = "put") →
      ∃ v, black_scholes_price log' sqrt' exp' cdf' S K T r sigma kind = .ok v) ∧
    domainMsg ≠ invalidTypeMsg := by
  refine ⟨fun h => ?_, fun hS hK hT hsig h1 h2 => ?_, fun hS hK hT hsig h => ?_, by decide⟩
  · have hguard : T ≤ 0 ∨ sigma ≤ 0 ∨ S ≤ 0 ∨ K ≤ 0 := by tauto
    simp [black_scholes_price, if_pos hguard]
  · have hguard : ¬(T ≤ 0 ∨ sigma ≤ 0 ∨ S ≤ 0 ∨ K ≤ 0) := by
      push_neg
      exact ⟨hT, hsig, hS, hK⟩
    simp [black_scholes_price, if_neg hguard, if_neg h1, if_neg h2]
  · rcases h with hk | hk
    · exact ⟨_, bsp_ok_call log' sqrt' exp' cdf' S K T r sigma hS hK hT hsig kind hk⟩
    · exact ⟨_, bsp_ok_put log' sqrt' exp' cdf' S K T r sigma hS hK hT hsig kind hk⟩

/-- Witness for C2: a nonpositive spot yields the domain ValueError, kind
`"swap"` yields the invalid-option-type ValueError, and kind `"PUT"` with
valid numeric parameters yields a value. -/
theorem price_error_characterization_witness :
    black_scholes_price Real.log Real.sqrt Real.exp
        (fun x => (ProbabilityTheory.gaussianReal 0 1 (Set.Iic x)).toReal)
        (-1) 105 1 0.05 0.2 "call" = .error (.valueError domainMsg) ∧
    black_scholes_price Real.log Real.sqrt Real.exp
        (fun x => (ProbabilityTheory.gaussianReal 0 1 (Set.Iic x)).toReal)
        100 105 1 0.05 0.2 "swap" = .error (.valueError invalidTypeMsg) ∧
    ∃ v, black_scholes_price Real.log Real.sqrt Real.exp
        (fun x => (ProbabilityTheory.gaussianReal 0 1 (Set.Iic x)).toReal)
        100 105 1 0.05 0.2 "PUT" = .ok v :=
  ⟨(price_error_characterization Real.log Real.sqrt Real.exp _
      (-1) 105 1 0.05 0.2 "call").1 (by norm_num),
   (price_error_characterization Real.log Real.sqrt Real.exp _
      100 105 1 0.05 0.2 "swap").2.1 (by norm_num) (by norm_num) (by norm_num)
      (by norm_num) (by decide) (by decide),
   (price_error_characterization Real.log Real.sqrt Real.exp _
      100 105 1 0.05 0.2 "PUT").2.2.1 (by norm_num) (by norm_num) (by norm_num)
      (by norm_num) (Or.inr (by decide))⟩

/-- C3: put-call parity.  For any CDF satisfying the standard-normal
symmetry `Φ(−x) = 1 − Φ(x)` (which the standard normal CDF does), and any
S>0, K>0, T>0, σ>0 and real r, the call and put prices both succeed and
their difference equals `S − K·e^(−r·T)` exactly — in particular within
1e-8 relative tolerance. -/
theorem put_call_parity (log' sqrt' cdf' : ℝ → ℝ)
    (hsym : ∀ x, cdf' (-x) = 1 - cdf' x)
    (S K T r sigma : ℝ) (hS : 0 < S) (hK : 0 < K) (hT : 0 < T) (hsig : 0 < sigma) :
    ∃ c p,
      black_scholes_price log' sqrt' Real.exp cdf' S K T r sigma "call" = .ok c ∧
      black_scholes_price log' sqrt' Real.exp cdf' S K T r sigma "put" = .ok p ∧
      c - p = S - K * Real.exp (-(r * T)) ∧
      |c - p - (S - K * Real.exp (-(r * T)))| ≤
        1e-8 * |S - K * Real.exp (-(r * T))| := by
  refine ⟨_, _,
    bsp_ok_call log' sqrt' Real.exp cdf' S K T r sigma hS hK hT hsig "call" (by decide),
    bsp_ok_put log' sqrt' Real.exp cdf' S K T r sigma hS hK hT hsig "put" (by decide),
    ?_, ?_⟩
  · unfold specCallPrice specPutPrice
    rw [hsym (specD2 log' sqrt' S K T r sigma), hsym (specD1 log' sqrt' S K T r sigma)]
    ring
  · unfold specCallPrice specPutPrice
    rw [hsym (specD2 log' sqrt' S K T r sigma), hsym (specD1 log' sqrt' S K T r sigma)]
    have h0 : S * cdf' (specD1 log' sqrt' S K T r sigma) -
        K * Real.exp (-(r * T)) * cdf' (specD2 log' sqrt' S K T r sigma) -
        (K * Real.exp (-(r * T)) * (1 - cdf' (specD2 log' sqrt' S K T r sigma)) -
          S * (1 - cdf' (specD1 log' sqrt' S K T r sigma))) -
        (S - K * Real.exp (-(r * T))) = 0 := by ring
    rw [h0, abs_zero]
    positivity

/-- Witness for C3 at S=100, K=105, T=1, r=0.05, σ=0.2 with the symmetric
CDF `x ↦ 1/2`. -/
theorem put_call_parity_witness :
    ∃ c p,
      black_scholes_price Real.log Real.sqrt Real.exp (fun _ => (1:ℝ)/2)
        100 105 1 0.05 0.2 "call" = .ok c ∧
      black_scholes_price Real.log Real.sqrt Real.exp (fun _ => (1:ℝ)/2)
        100 105 1 0.05 0.2 "put" = .ok p ∧
      c - p = 100 - 105 * Real.exp (-(0.05 * 1)) ∧
      |c - p - (100 - 105 * Real.exp (-(0.05 * 1)))| ≤
        1e-8 * |100 - 105 * Real.exp (-(0.05 * 1))| :=
  put_call_parity Real.log Real.sqrt (fun _ => (1:ℝ)/2)
    (fun x => by norm_num) 100 105 1 0.05 0.2
    (by norm_num) (by norm_num) (by norm_num) (by norm_num)

/-- C9: `volatility` fails, with the insufficient-history ValueError, if and
only if `index < 252`; for `index ≥ 252` it succeeds and returns a value
(for any series, in particular a sufficiently long one). -/
theorem volatility_insufficient_history (log' sqrt' : ℝ → ℝ)
    (closes : List ℝ) (index : ℕ) :
    (index < 252 ∧
      volatility log' sqrt' closes index = .error (.valueError historyMsg)) ∨
    (252 ≤ index ∧ ∃ v, volatility log' sqrt' closes index = .ok v) := by
  by_cases h : index < 252
  · exact Or.inl ⟨h, by simp [volatility, h]⟩
  · exact Or.inr ⟨by omega,
      ⟨sampleStd sqrt' (logReturns log' (windowCloses closes index)) * sqrt' 252,
        by simp [volatility, h]⟩⟩

/-- Helper: `getD` on a replicated list is the replicated element. -/
lemma getD_replicate_of_lt (a d : ℝ) : ∀ n i, i < n →
    (List.replicate n a).getD i d = a := by
  intro n
  induction n with
  | zero => omega
  | succ m ih =>
    intro i hi
    cases i with
    | zero => simp [List.replicate_succ]
    | succ j => simpa [List.replicate_succ] using ih j (by omega)

/-- Helper: `zipWith` over a replicate and a one-longer replicate. -/
lemma zipWith_replicate_succ (f : ℝ → ℝ → ℝ) (a b : ℝ) :
    ∀ n, List.zipWith f (List.replicate n a) (List.replicate (n + 1) b) =
      List.replicate n (f a b) := by
  intro n
  induction n with
  | zero => rfl
  | succ m ih =>
    rw [List.replicate_succ a, List.replicate_succ b (m + 1), List.zipWith_cons_cons, ih,
      List.replicate_succ]

/-- Helper: the shifted-quotient form of `logReturns` (pandas
`prices / prices.shift(1)` plus `dropna`) agrees with the position-indexed
consecutive-pairs form of the spec. -/
lemma zipWith_shift_eq_range_map (f : ℝ → ℝ → ℝ) :
    ∀ (w : List ℝ) (a : ℝ),
      List.zipWith f w (a :: w) =
        (List.range w.length).map fun t => f (w.getD t 0) ((a :: w).getD t 0) := by
  intro w
  induction w with
  | nil => intro a; rfl
  | cons b w ih =>
    intro a
    rw [List.zipWith_cons_cons, List.length_cons, List.range_succ_eq_map,
      List.map_cons, List.map_map, ih b]
    simp [Function.comp_def]

/-- Helper: the pandas shifted-ratio log returns equal the spec's
consecutive-pairs log returns. -/
lemma logReturns_eq_spec (log' : ℝ → ℝ) (w : List ℝ) :
    logReturns log' w = specLogReturns log' w := by
  cases w with
  | nil => rfl
  | cons a w =>
    unfold logReturns specLogReturns
    rw [List.tail_cons, List.length_cons, Nat.add_sub_cancel,
      zipWith_shift_eq_range_map _ w a]
    simp

/-- Helper: the sample standard deviation of a constant-zero list is 0. -/
lemma sampleStd_replicate_zero (n : ℕ) :
    sampleStd Real.sqrt (List.replicate n (0:ℝ)) = 0 := by
  simp [sampleStd, List.sum_replicate, List.map_replicate]

/-- C4: for every series and every index with 252 ≤ index ≤ length,
`volatility` returns the spec's trailing volatility: the sample standard
deviation (ddof = 1) of the 251 consecutive-pair log returns over positions
[index−252, index), annualized by √252; and on a window of constant
(positive) closes it returns 0. -/
theorem trailing_volatility_spec (closes : List ℝ) (index : ℕ)
    (h252 : 252 ≤ index) (hlen : index ≤ closes.length) :
    (volatility Real.log Real.sqrt closes index =
      .ok (specTrailingVol Real.log Real.sqrt closes index)) ∧
    (specLogReturns Real.log (windowCloses closes index)).length = 251 ∧
    (∀ c : ℝ, 0 < c → windowCloses closes index = List.replicate 252 c →
      volatility Real.log Real.sqrt closes index = .ok 0) := by
  have hnot : ¬ index < 252 := by omega
  refine ⟨?_, ?_, ?_⟩
  · rw [volatility, if_neg hnot, specTrailingVol, logReturns_eq_spec]
  · have hw : (windowCloses closes index).length = 252 := by
      simp only [windowCloses, List.length_take, List.length_drop]
      omega
    simp [specLogReturns, hw]
  · intro c hc hwin
    rw [volatility, if_neg hnot, hwin]
    have hlr : logReturns Real.log (List.replicate 252 c) =
        List.replicate 251 (0:ℝ) := by
      unfold logReturns
      rw [show (252:ℕ) = 251 + 1 from rfl, List.replicate_succ, List.tail_cons,
        ← List.replicate_succ, zipWith_replicate_succ]
      rw [div_self hc.ne', Real.log_one]
    rw [hlr, sampleStd_replicate_zero, zero_mul]

/-- Witness for C4 on the constant series of 300 closes equal to 2, at
index 252. -/
theorem trailing_volatility_spec_witness :
    (volatility Real.log Real.sqrt (List.replicate 300 (2:ℝ)) 252 =
      .ok (specTrailingVol Real.log Real.sqrt (List.replicate 300 (2:ℝ)) 252)) ∧
    (specLogReturns Real.log (windowCloses (List.replicate 300 (2:ℝ)) 252)).length
      = 251 ∧
    volatility Real.log Real.sqrt (List.replicate 300 (2:ℝ)) 252 = .ok 0 := by
  obtain ⟨h1, h2, h3⟩ := trailing_volatility_spec (List.replicate 300 (2:ℝ)) 252
    (by norm_num) (by rw [List.length_replicate]; norm_num)
  refine ⟨h1, h2, h3 2 (by norm_num) ?_⟩
  rw [windowCloses, Nat.sub_self, List.drop_zero, List.take_replicate]
  norm_num

/-- Helper: reduction of `Except` bind on a success value. -/
lemma except_ok_bind {α β : Type} (v : α) (f : α → Except PyError β) :
    ((Except.ok v : Except PyError α) >>= f) = f v := rfl

/-- Helper: reduction of `Except` bind on an error (the exception
propagates). -/
lemma except_error_bind {α β : Type} (e : PyError) (f : α → Except PyError β) :
    ((Except.error e : Except PyError α) >>= f) = Except.error e := rfl

/-- Helper: a successful `backtestStep` record carries the loop index, the
spot read from the series, and the unfloored
`close[i+252] − strikeRatio·S` as its emitted `yearlyProfit`. -/
lemma backtestStep_ok_fields (log' sqrt' exp' cdf' : ℝ → ℝ) (closes : List ℝ)
    (i : ℕ) (s : Step ℝ)
    (h : backtestStep log' sqrt' exp' cdf' closes i = .ok s) :
    s.idx = i ∧ s.S = closes.getD i 0 ∧
    s.yearlyProfit = closes.getD (i + 252) 0 - strikeRat * s.S := by
  simp only [backtestStep] at h
  cases hv : volatility log' sqrt' closes i with
  | error e => rw [hv, except_error_bind] at h; simp at h
  | ok v =>
    rw [hv, except_ok_bind] at h
    cases hp : black_scholes_price log' sqrt' exp' cdf' (closes.getD i 0)
        (closes.getD i 0 * strikeRat) 1 (strikeRat - 1) v "call" with
    | error e => rw [hp, except_error_bind] at h; simp at h
    | ok cp =>
      rw [hp, except_ok_bind] at h
      injection h with h'
      subst h'
      exact ⟨rfl, rfl, rfl⟩

/-- Helper: a successful pass of the `diffCheck` loop leaves `totalProfit`
untouched, appends exactly one step per index, and records the indices in
order. -/
lemma runSteps_ok_inv (log' sqrt' exp' cdf' : ℝ → ℝ) (closes : List ℝ) :
    ∀ (idxs : List ℕ) (st st' : LoopState ℝ),
      runSteps log' sqrt' exp' cdf' closes idxs st = .ok st' →
      st'.totalProfit = st.totalProfit ∧
      st'.steps.length = st.steps.length + idxs.length ∧
      st'.steps.map Step.idx = st.steps.map Step.idx ++ idxs := by
  intro idxs
  induction idxs with
  | nil =>
    intro st st' h
    rw [runSteps] at h
    injection h with h'
    subst h'
    exact ⟨rfl, rfl, by simp⟩
  | cons i rest ih =>
    intro st st' h
    rw [runSteps] at h
    cases hs : backtestStep log' sqrt' exp' cdf' closes i with
    | error e => rw [hs, except_error_bind] at h; simp at h
    | ok s =>
      rw [hs, except_ok_bind] at h
      obtain ⟨h1, h2, h3⟩ := ih _ _ h
      have hidx := (backtestStep_ok_fields log' sqrt' exp' cdf' closes i s hs).1
      refine ⟨h1, ?_, ?_⟩
      · rw [h2]
        simp only [List.length_append, List.length_cons, List.length_nil]
        omega
      · rw [h3, List.map_append]
        simp [hidx]

/-- Helper: a successful `finalize` copies the step list and the untouched
`totalProfit` accumulator into the result and sets the years figure to
`(rowCount − 252 − startIndex)/252`. -/
lemma finalize_ok_inv (pow' : ℝ → ℝ → ℝ) (rowCount startIndex : ℕ)
    (st : LoopState ℝ) (res : RunResult ℝ)
    (h : finalize pow' rowCount startIndex st = .ok res) :
    res.steps = st.steps ∧ res.totalProfit = st.totalProfit ∧
    res.years = ((rowCount : ℝ) - 252 - (startIndex : ℝ)) / 252 := by
  simp only [finalize] at h
  split_ifs at h with h1 h2 h3
  all_goals cases h
  all_goals exact ⟨rfl, rfl, rfl⟩

/-- C10: whenever `diffCheck` completes without raising, the value it
returns — the `totalProfit` accumulator, initialized to 0 at the top of the
function and never updated anywhere in it — is exactly 0. -/
theorem diffCheck_returns_zero (log' sqrt' exp' cdf' : ℝ → ℝ)
    (pow' : ℝ → ℝ → ℝ) (closes : List ℝ) (start_index : ℕ) (res : RunResult ℝ)
    (h : diffCheck log' sqrt' exp' cdf' pow' closes start_index = .ok res) :
    res.totalProfit = 0 := by
  simp only [diffCheck] at h
  cases hr : runSteps log' sqrt' exp' cdf' closes
      (List.range' start_index (closes.length - 252 - start_index))
      ⟨0, 0, 0, []⟩ with
  | error e => rw [hr, except_error_bind] at h; simp at h
  | ok st =>
    rw [hr, except_ok_bind] at h
    have h1 := (runSteps_ok_inv log' sqrt' exp' cdf' closes _ _ _ hr).1
    have h2 := (finalize_ok_inv pow' closes.length start_index st res h).2.1
    rw [h2, h1]

/-- Helper: on a window of 252 equal nonzero closes the real-log/real-sqrt
volatility is 0 (all 251 log returns are `log 1 = 0`). -/
lemma volatility_const_window (closes : List ℝ) (index : ℕ) (c : ℝ) (hc : c ≠ 0)
    (hnot : ¬ index < 252)
    (hwin : windowCloses closes index = List.replicate 252 c) :
    volatility Real.log Real.sqrt closes index = .ok 0 := by
  rw [volatility, if_neg hnot, hwin]
  have hlr : logReturns Real.log (List.replicate 252 c) =
      List.replicate 251 (0:ℝ) := by
    unfold logReturns
    rw [show (252:ℕ) = 251 + 1 from rfl, List.replicate_succ, List.tail_cons,
      ← List.replicate_succ, zipWith_replicate_succ]
    rw [div_self hc, Real.log_one]
  rw [hlr, sampleStd_replicate_zero, zero_mul]

/-- Helper: evaluation of one backtest step on the constant series of 505
closes equal to 2, with degenerate stand-ins for the math library
(`log' = 0`, `sqrt' = 1`, `exp' = 0`, `cdf' = 1/2`): the volatility
evaluates to 1 and the call price to 1. -/
lemma backtestStep_toy :
    backtestStep (fun _ => (0:ℝ)) (fun _ => 1) (fun _ => 0) (fun _ => 1/2)
      (List.replicate 505 (2:ℝ)) 252 =
      .ok ⟨252, 2, 2 * strikeRat, 1, 1, 2 - strikeRat * 2⟩ := by
  have hS : (List.replicate 505 (2:ℝ)).getD 252 0 = 2 :=
    getD_replicate_of_lt 2 0 505 252 (by norm_num)
  have hS2 : (List.replicate 505 (2:ℝ)).getD (252 + 252) 0 = 2 :=
    getD_replicate_of_lt 2 0 505 (252 + 252) (by norm_num)
  have hpl : pyLower "call" = "call" := by decide
  have hvol : volatility (fun _ => (0:ℝ)) (fun _ => 1)
      (List.replicate 505 (2:ℝ)) 252 = .ok 1 := by
    rw [volatility, if_neg (by norm_num)]
    simp [sampleStd]
  have hbsp : black_scholes_price (fun _ => (0:ℝ)) (fun _ => 1) (fun _ => 0)
      (fun _ => 1/2) 2 (2 * strikeRat) 1 (strikeRat - 1) 1 "call" = .ok 1 := by
    rw [black_scholes_price, if_neg (by norm_num [strikeRat]), hpl, if_pos rfl]
    norm_num
  simp only [backtestStep, hS, hS2]
  rw [hvol, except_ok_bind, hbsp, except_ok_bind]

/-- Helper: full evaluation of `diffCheck` on the constant series of 505
closes equal to 2 with start index 252 and the degenerate math stand-ins:
exactly one step runs, totalCost is 1, netReturn is 0, and the run
completes. -/
lemma diffCheck_toy :
    diffCheck (fun _ => (0:ℝ)) (fun _ => 1) (fun _ => 0) (fun _ => 1/2)
      (fun _ _ => 0) (List.replicate 505 (2:ℝ)) 252 =
      .ok ⟨[⟨252, 2, 2 * strikeRat, 1, 1, 2 - strikeRat * 2⟩], -1, 1, -1, 1 / 252,
        .real 0, 0⟩ := by
  have hS2 : (List.replicate 505 (2:ℝ)).getD (252 + 252) 0 = 2 :=
    getD_replicate_of_lt 2 0 505 (252 + 252) (by norm_num)
  simp only [diffCheck, List.length_replicate]
  rw [show (505:ℕ) - 252 - 252 = 1 from rfl,
    show List.range' 252 1 = [252] from rfl,
    runSteps, backtestStep_toy, except_ok_bind, runSteps, except_ok_bind]
  simp only [hS2]
  rw [finalize]
  norm_num [strikeRat]

/-- Witness for C10: the completed toy run above returns a result whose
`totalProfit` is 0. -/
theorem diffCheck_returns_zero_witness :
    (⟨[⟨252, 2, 2 * strikeRat, 1, 1, 2 - strikeRat * 2⟩], -1, 1, -1, 1 / 252,
      .real 0, 0⟩ : RunResult ℝ).totalProfit = 0 :=
  diffCheck_returns_zero (fun _ => (0:ℝ)) (fun _ => 1) (fun _ => 0) (fun _ => 1/2)
    (fun _ _ => 0) (List.replicate 505 (2:ℝ)) 252 _ diffCheck_toy

/-- C5 (amended): whenever `diffCheck` completes, its step series covers
exactly the indices `start_index, …, length − 252 − 1` in ascending order,
has length `length − 252 − start_index`, and the elapsed-years figure is
exactly that length divided by 252.  (The completion hypothesis is needed:
the run aborts instead on, e.g., a constant series — see the
counterexample theorem.) -/
theorem diffCheck_step_count (log' sqrt' exp' cdf' : ℝ → ℝ)
    (pow' : ℝ → ℝ → ℝ) (closes : List ℝ) (start_index : ℕ) (res : RunResult ℝ)
    (h252 : 252 ≤ start_index) (hlt : start_index < closes.length - 252)
    (h : diffCheck log' sqrt' exp' cdf' pow' closes start_index = .ok res) :
    res.steps.length = closes.length - 252 - start_index ∧
    res.steps.map Step.idx =
      List.range' start_index (closes.length - 252 - start_index) ∧
    res.years = ((closes.length - 252 - start_index : ℕ) : ℝ) / 252 := by
  simp only [diffCheck] at h
  cases hr : runSteps log' sqrt' exp' cdf' closes
      (List.range' start_index (closes.length - 252 - start_index))
      ⟨0, 0, 0, []⟩ with
  | error e => rw [hr, except_error_bind] at h; simp at h
  | ok st =>
    rw [hr, except_ok_bind] at h
    obtain ⟨-, hlen, hmap⟩ := runSteps_ok_inv log' sqrt' exp' cdf' closes _ _ _ hr
    obtain ⟨hsteps, -, hyears⟩ :=
      finalize_ok_inv pow' closes.length start_index st res h
    have hcast : ((closes.length - 252 - start_index : ℕ) : ℝ) =
        (closes.length : ℝ) - 252 - (start_index : ℝ) := by
      have hc : 252 + start_index ≤ closes.length := by omega
      rw [Nat.sub_sub, Nat.cast_sub hc]
      push_cast
      ring
    refine ⟨?_, ?_, ?_⟩
    · rw [hsteps, hlen]
      simp [List.length_range']
    · rw [hsteps, hmap]
      simp
    · rw [hyears, hcast]

/-- Witness for C5 (amended) on the completed toy run: one step, at index
252, and years = 1/252. -/
theorem diffCheck_step_count_witness :
    (⟨[⟨252, 2, 2 * strikeRat, 1, 1, 2 - strikeRat * 2⟩], -1, 1, -1, 1 / 252,
        .real 0, 0⟩ : RunResult ℝ).steps.length =
      (List.replicate 505 (2:ℝ)).length - 252 - 252 ∧
    (⟨[⟨252, 2, 2 * strikeRat, 1, 1, 2 - strikeRat * 2⟩], -1, 1, -1, 1 / 252,
        .real 0, 0⟩ : RunResult ℝ).steps.map Step.idx =
      List.range' 252 ((List.replicate 505 (2:ℝ)).length - 252 - 252) ∧
    (⟨[⟨252, 2, 2 * strikeRat, 1, 1, 2 - strikeRat * 2⟩], -1, 1, -1, 1 / 252,
        .real 0, 0⟩ : RunResult ℝ).years =
      (((List.replicate 505 (2:ℝ)).length - 252 - 252 : ℕ) : ℝ) / 252 :=
  diffCheck_step_count (fun _ => (0:ℝ)) (fun _ => 1) (fun _ => 0) (fun _ => 1/2)
    (fun _ _ => 0) (List.replicate 505 (2:ℝ)) 252 _ (by norm_num)
    (by rw [List.length_replicate]; norm_num) diffCheck_toy

/-- C5 (counterexample to the claim as stated): on the constant series of
505 closes equal to 2, with start index 252 (which satisfies
252 ≤ startIndex < length − 252), the run does not produce a step series at
all — the first step's volatility is 0, the pricer raises the domain
ValueError, and the whole run aborts. -/
theorem diffCheck_aborts_on_constant_series :
    diffCheck Real.log Real.sqrt Real.exp
      (fun x => (ProbabilityTheory.gaussianReal 0 1 (Set.Iic x)).toReal)
      Real.rpow (List.replicate 505 (2:ℝ)) 252 =
      .error (.valueError domainMsg) := by
  have hvol : volatility Real.log Real.sqrt (List.replicate 505 (2:ℝ)) 252 =
      .ok 0 := by
    refine volatility_const_window _ _ 2 (by norm_num) (by norm_num) ?_
    rw [windowCloses, Nat.sub_self, List.drop_zero, List.take_replicate]
    norm_num
  have hstep : backtestStep Real.log Real.sqrt Real.exp
      (fun x => (ProbabilityTheory.gaussianReal 0 1 (Set.Iic x)).toReal)
      (List.replicate 505 (2:ℝ)) 252 = .error (.valueError domainMsg) := by
    simp only [backtestStep]
    rw [hvol, except_ok_bind]
    rw [black_scholes_price, if_pos (Or.inr (Or.inl le_rfl)), except_error_bind]
  simp only [diffCheck, List.length_replicate]
  rw [show (505:ℕ) - 252 - 252 = 1 from rfl,
    show List.range' 252 1 = [252] from rfl,
    runSteps, hstep, except_error_bind, except_error_bind]

/-- Helper: on the series `1, 2, 2, …` the trailing window at index 252 is
`1` followed by 251 copies of `2`, its log returns are `log 2` followed by
250 zeros, and the real trailing volatility is strictly positive. -/
lemma volatility_pos_on_kink :
    ∃ v, 0 < v ∧
      volatility Real.log Real.sqrt (1 :: List.replicate 504 (2:ℝ)) 252 = .ok v := by
  have hwin : windowCloses (1 :: List.replicate 504 (2:ℝ)) 252 =
      1 :: List.replicate 251 (2:ℝ) := by
    rw [windowCloses, Nat.sub_self, List.drop_zero,
      show (252:ℕ) = 251 + 1 from rfl, List.take_succ_cons, List.take_replicate]
    norm_num
  have hlr : logReturns Real.log (1 :: List.replicate 251 (2:ℝ)) =
      Real.log 2 :: List.replicate 250 (0:ℝ) := by
    unfold logReturns
    rw [List.tail_cons, show (251:ℕ) = 250 + 1 from rfl, List.replicate_succ,
      List.zipWith_cons_cons, ← List.replicate_succ, zipWith_replicate_succ]
    norm_num
  have hL : 0 < Real.log 2 := Real.log_pos (by norm_num)
  have hstd : 0 < sampleStd Real.sqrt (Real.log 2 :: List.replicate 250 (0:ℝ)) := by
    simp only [sampleStd, List.length_cons, List.length_replicate, List.sum_cons,
      List.sum_replicate, smul_zero, add_zero, List.map_cons, List.map_replicate,
      nsmul_eq_mul]
    apply Real.sqrt_pos.2
    apply div_pos ?_ (by push_cast; norm_num)
    have h1 : 0 < Real.log 2 - Real.log 2 / ((250:ℕ) + 1 : ℝ) := by
      have hd : Real.log 2 / ((250:ℕ) + 1 : ℝ) < Real.log 2 := by
        apply div_lt_self hL
        push_cast
        norm_num
      linarith
    have h2 : (0:ℝ) ≤ ((250:ℕ):ℝ) * ((0 - Real.log 2 / ((250:ℕ) + 1 : ℝ)) ^ 2) := by
      positivity
    nlinarith [pow_pos h1 2]
  refine ⟨sampleStd Real.sqrt (Real.log 2 :: List.replicate 250 (0:ℝ)) * Real.sqrt 252,
    mul_pos hstd (Real.sqrt_pos.2 (by norm_num)), ?_⟩
  rw [volatility, if_neg (by norm_num), hwin, hlr]

/-- C6 (counterexample to the claim as stated): on the series
`1, 2, 2, …` (505 closes) at step i = 252 — a step of the backtest whose
pricing succeeds — the per-step record's emitted payoff (`yearlyProfit`) is
`2 − 1.05·2 = −1/10`, which is not the floored
`max(close[i+252] − strikeRatio·S, 0) = 0`. -/
theorem step_emits_unfloored_payoff :
    (backtestStep Real.log Real.sqrt Real.exp
        (fun x => (ProbabilityTheory.gaussianReal 0 1 (Set.Iic x)).toReal)
        (1 :: List.replicate 504 (2:ℝ)) 252).map Step.yearlyProfit =
      .ok (-(1/10)) ∧
    ((-(1/10) : ℝ) ≠
      max ((1 :: List.replicate 504 (2:ℝ)).getD (252 + 252) 0 - strikeRat * 2) 0) := by
  have hS2 : (1 :: List.replicate 504 (2:ℝ)).getD (252 + 252) 0 = 2 := by
    rw [show (252 + 252 : ℕ) = 503 + 1 from rfl, List.getD_cons_succ]
    exact getD_replicate_of_lt 2 0 504 503 (by norm_num)
  constructor
  · obtain ⟨v, hv, hvol⟩ := volatility_pos_on_kink
    have hS : (1 :: List.replicate 504 (2:ℝ)).getD 252 0 = 2 := by
      rw [show (252:ℕ) = 251 + 1 from rfl, List.getD_cons_succ]
      exact getD_replicate_of_lt 2 0 504 251 (by norm_num)
    have hpl : pyLower "call" = "call" := by decide
    have hguard : ¬((1:ℝ) ≤ 0 ∨ v ≤ 0 ∨ (2:ℝ) ≤ 0 ∨ 2 * (strikeRat : ℝ) ≤ 0) := by
      push_neg
      exact ⟨by norm_num, hv, by norm_num, by norm_num [strikeRat]⟩
    have hbsp : black_scholes_price Real.log Real.sqrt Real.exp
        (fun x => (ProbabilityTheory.gaussianReal 0 1 (Set.Iic x)).toReal)
        2 (2 * strikeRat) 1 (strikeRat - 1) v "call" =
        .ok (2 * (ProbabilityTheory.gaussianReal 0 1
            (Set.Iic (specD1 Real.log Real.sqrt 2 (2 * strikeRat) 1 (strikeRat - 1) v))).toReal -
          2 * strikeRat * Real.exp (-(strikeRat - 1) * 1) *
            (ProbabilityTheory.gaussianReal 0 1
              (Set.Iic (specD2 Real.log Real.sqrt 2 (2 * strikeRat) 1 (strikeRat - 1) v))).toReal) := by
      rw [black_scholes_price, if_neg hguard, hpl, if_pos rfl]
      rw [specD2, specD1]
    simp only [backtestStep, hS, hS2]
    rw [hvol, except_ok_bind, hbsp, except_ok_bind]
    simp only [Except.map]
    norm_num [strikeRat]
  · rw [hS2, max_eq_right (by norm_num [strikeRat])]
    norm_num

/-- C6 (amended): for every successful backtest step, the per-step record's
emitted `yearlyProfit` is the unfloored `close[i+252] − strikeRatio·S`,
while the quantity accumulated into `netReturn` by the loop is the floored
`max(close[i+252] − 1.05·S, 0)`. -/
theorem step_record_and_netreturn_accumulation (log' sqrt' exp' cdf' : ℝ → ℝ)
    (closes : List ℝ) (i : ℕ) (s : Step ℝ)
    (h : backtestStep log' sqrt' exp' cdf' closes i = .ok s)
    (rest : List ℕ) (st : LoopState ℝ) :
    s.yearlyProfit = closes.getD (i + 252) 0 - strikeRat * s.S ∧
    runSteps log' sqrt' exp' cdf' closes (i :: rest) st =
      runSteps log' sqrt' exp' cdf' closes rest
        ⟨st.totalProfit, st.totalCost + s.callPrice,
         st.netReturn + max (closes.getD (i + 252) 0 - 1.05 * s.S) 0,
         st.steps ++ [s]⟩ := by
  refine ⟨(backtestStep_ok_fields log' sqrt' exp' cdf' closes i s h).2.2, ?_⟩
  rw [runSteps, h, except_ok_bind]

/-- Witness for C6 (amended), on the toy step: the emitted payoff is the
unfloored difference, and the loop update adds the floored one. -/
theorem step_record_and_netreturn_accumulation_witness :
    (⟨252, 2, 2 * strikeRat, 1, 1, 2 - strikeRat * 2⟩ : Step ℝ).yearlyProfit =
      (List.replicate 505 (2:ℝ)).getD (252 + 252) 0 -
        strikeRat * (⟨252, 2, 2 * strikeRat, 1, 1, 2 - strikeRat * 2⟩ : Step ℝ).S ∧
    runSteps (fun _ => (0:ℝ)) (fun _ => 1) (fun _ => 0) (fun _ => 1/2)
        (List.replicate 505 (2:ℝ)) [252] ⟨0, 0, 0, []⟩ =
      runSteps (fun _ => (0:ℝ)) (fun _ => 1) (fun _ => 0) (fun _ => 1/2)
        (List.replicate 505 (2:ℝ)) []
        ⟨(⟨0, 0, 0, []⟩ : LoopState ℝ).totalProfit,
         (⟨0, 0, 0, []⟩ : LoopState ℝ).totalCost +
           (⟨252, 2, 2 * strikeRat, 1, 1, 2 - strikeRat * 2⟩ : Step ℝ).callPrice,
         (⟨0, 0, 0, []⟩ : LoopState ℝ).netReturn +
           max ((List.replicate 505 (2:ℝ)).getD (252 + 252) 0 -
             1.05 * (⟨252, 2, 2 * strikeRat, 1, 1, 2 - strikeRat * 2⟩ : Step ℝ).S) 0,
         (⟨0, 0, 0, []⟩ : LoopState ℝ).steps ++
           [⟨252, 2, 2 * strikeRat, 1, 1, 2 - strikeRat * 2⟩]⟩ :=
  step_record_and_netreturn_accumulation (fun _ => (0:ℝ)) (fun _ => 1) (fun _ => 0)
    (fun _ => 1/2) (List.replicate 505 (2:ℝ)) 252 _ backtestStep_toy [] ⟨0, 0, 0, []⟩

/-- C7: contrary to the claim, the summary does not report undefined
aggregates.  With zero accumulated cost (here: an empty iteration range, so
`totalCost = 0`), the roi division raises `ZeroDivisionError` — the run
crashes; and on a negative base `netReturn/totalCost` the annualized-return
power silently yields a Python complex value (the `PyNum.complex` marker),
not an undefined report. -/
theorem summary_zero_cost_crashes_and_negative_base_goes_complex :
    diffCheck Real.log Real.sqrt Real.exp
      (fun x => (ProbabilityTheory.gaussianReal 0 1 (Set.Iic x)).toReal)
      Real.rpow (List.replicate 700 (3:ℝ)) 448 = .error .zeroDivisionError ∧
    finalize Real.rpow 700 100 ⟨0, 1, -1, []⟩ =
      .ok ⟨[], -2, 1, -2, 29/21, .complex, 0⟩ := by
  constructor
  · simp only [diffCheck, List.length_replicate]
    rw [show (700:ℕ) - 252 - 448 = 0 from rfl,
      show List.range' 448 0 = ([] : List ℕ) from rfl,
      runSteps, except_ok_bind, finalize, if_pos rfl]
  · norm_num [finalize]

/-- C8: contrary to the claim, an empty iteration range (here
`start_index = 348 = length − 252`) is not reported as insufficient data
before the loop: the loop body never runs, `totalCost` stays 0, and the
run then crashes with `ZeroDivisionError` at the roi division. -/
theorem empty_range_crashes_with_zero_division :
    diffCheck Real.log Real.sqrt Real.exp
      (fun x => (ProbabilityTheory.gaussianReal 0 1 (Set.Iic x)).toReal)
      Real.rpow (List.replicate 600 (2:ℝ)) 348 = .error .zeroDivisionError := by
  simp only [diffCheck, List.length_replicate]
  rw [show (600:ℕ) - 252 - 348 = 0 from rfl,
    show List.range' 348 0 = ([] : List ℕ) from rfl,
    runSteps, except_ok_bind, finalize, if_pos rfl]

end DoomsdayChallenge
